import Mathlib

/-!
Verification of the AI-job-hunter frontend (src/frontend/src/App.tsx) against its
specification. The executable part of the repository is the React single-page
app; its pure logic (keyword extraction, match scoring, score-ordered job
filtering, the applied-jobs set and the two apply handlers) is embedded below as
Lean functions. The backend orchestration engine the specification describes
(credential validation barrier, per-job decision gate, batch results ledger,
recommendation bands) is documented in the repository guides but its code is not
part of the source tree; those parts are modelled from the spec and are marked as
such in their doc comments.

Strings are modelled over their character lists; JavaScript's toLowerCase and the
regex character class A-Za-z act on ASCII letters, which is exactly what
Char.toLower and Char.isAlpha implement.
-/

/-- A job posting, following the Job interface of App.tsx: id, title, company,
location, optional salary, employment type, description and posted age. -/
structure Job where
  id : String
  title : String
  company : String
  location : String
  salary : Option String
  type : String
  description : String
  posted : String
deriving DecidableEq, Repr

/-- JavaScript String.prototype.toLowerCase restricted to ASCII letters, applied
characterwise. -/
def lowerStr (s : String) : String :=
  String.mk (s.data.map Char.toLower)

/-- Substring containment on character lists: true exactly when the needle occurs
contiguously inside the haystack (JavaScript String.prototype.includes). -/
def charsContain (needle : List Char) : List Char → Bool
  | [] => needle.isEmpty
  | c :: rest => needle.isPrefixOf (c :: rest) || charsContain needle rest

/-- JavaScript haystack.includes(needle) on the embedded strings. -/
def strIncludes (haystack needle : String) : Bool :=
  charsContain needle.data haystack.data

/-- The lowercased job text that calculateMatchScore scans:
(job.title + ' ' + job.description + ' ' + job.company).toLowerCase(). -/
def jobText (job : Job) : String :=
  lowerStr (job.title ++ " " ++ job.description ++ " " ++ job.company)

/-- The keywords the counting loop of calculateMatchScore increments for: those
occurring as substrings of the lowercased job text, in keyword-list order. -/
def matchedKeywords (job : Job) (keywords : List String) : List String :=
  keywords.filter (fun k => strIncludes (jobText job) k)

/-- JavaScript Math.round on the nonnegative rational num/den: rounding half away
from zero, i.e. the floor of num/den + 1/2, computed as (2*num + den) / (2*den)
in natural division. -/
def jsRound (num den : Nat) : Nat :=
  (2 * num + den) / (2 * den)

/-- calculateMatchScore from App.tsx: count the keywords found in the lowercased
title + description + company text and return
Math.round((matches / keywords.length) * 100) || 0. With an empty keyword list
the JavaScript division yields NaN and the trailing || 0 turns the result into 0,
which the conditional below reproduces. -/
def calculateMatchScore (job : Job) (keywords : List String) : Nat :=
  let matchCount := (matchedKeywords job keywords).length
  if keywords.length = 0 then 0 else jsRound (100 * matchCount) keywords.length

/-- One step of scanning the resume text from the right while grouping the
maximal runs of ASCII letters matched by the regex of extractKeywordsFromResume.
The Bool records whether the character just to the right was a letter, i.e.
whether the head run is still growing. -/
def runStep (c : Char) (acc : Bool × List (List Char)) : Bool × List (List Char) :=
  if c.isAlpha then
    match acc with
    | (true, r :: rs) => (true, (c :: r) :: rs)
    | (_, rs) => (true, [c] :: rs)
  else (false, acc.2)

/-- The maximal runs of ASCII letters of a character list, in order: the global
matches of the regex used by extractKeywordsFromResume. -/
def alphaRuns (cs : List Char) : List (List Char) :=
  (cs.foldr runStep (false, [])).2

/-- JavaScript spread of a Set built from a list: keep the first occurrence of
each element, preserving insertion order. -/
def dedupFirst {α : Type} [DecidableEq α] (l : List α) : List α :=
  l.foldl (fun acc x => if x ∈ acc then acc else acc ++ [x]) []

/-- extractKeywordsFromResume from App.tsx: take the alphabetic words of the
resume text, lowercase them, drop duplicates keeping first occurrences, and keep
the first 20 of the distinct words. -/
def extractKeywordsFromResume (text : String) : List String :=
  (dedupFirst ((alphaRuns text.data).map (fun r => String.mk (r.map Char.toLower)))).take 20

/-- filterJobsByResume from App.tsx: decorate every job with its match score,
sort by score descending (Array.prototype.sort is stable, comparator
b.score - a.score), then project the jobs back out. mergeSort is a stable sort,
matching the JavaScript semantics. -/
def filterJobsByResume (keywords : List String) (jobs : List Job) : List Job :=
  ((jobs.map (fun job => (job, calculateMatchScore job keywords))).mergeSort
    (fun a b => decide (b.2 ≤ a.2))).map (fun item => item.1)

/-- JavaScript new Set(prev).add(id) on the applied-jobs state: insertion-ordered
insert that is a no-op when the id is already present. -/
def jsSetAdd (s : List String) (x : String) : List String :=
  if x ∈ s then s else s ++ [x]

/-- handleManualApply from App.tsx: without an uploaded resume it only alerts and
leaves the state alone; with one it adds the job's id to the applied-jobs set. -/
def handleManualApply (hasResume : Bool) (applied : List String) (job : Job) : List String :=
  if hasResume then jsSetAdd applied job.id else applied

/-- handleAutoApply from App.tsx: without a resume it alerts and returns. With
one it computes (once, before the loop) the jobs of filteredJobs whose id is not
yet in appliedJobs, then applies to every one of them, adding each id to the set
and counting it; the pair returned is the final applied set and the count the
closing alert reports. No match score is consulted anywhere in the handler. -/
def handleAutoApply (hasResume : Bool) (filteredJobs : List Job) (appliedJobs : List String) :
    List String × Nat :=
  if hasResume then
    let unmatched := filteredJobs.filter (fun job => ! appliedJobs.contains job.id)
    (unmatched.foldl (fun s job => jsSetAdd s job.id) appliedJobs, unmatched.length)
  else (appliedJobs, 0)

/-- The first sample job seeded in App.tsx. -/
def job1 : Job :=
  { id := "1", title := "Senior React Developer", company := "Tech Corp",
    location := "San Francisco", salary := some "$150K-$200K", type := "Full-time",
    description := "Expert React and TypeScript developer needed", posted := "2d" }

/-- The second sample job seeded in App.tsx. -/
def job2 : Job :=
  { id := "2", title := "Full Stack Engineer", company := "StartupXYZ",
    location := "New York", salary := some "$120K-$160K", type := "Full-time",
    description := "Build web apps with Node and React", posted := "1d" }

/-- The third sample job seeded in App.tsx. -/
def job3 : Job :=
  { id := "3", title := "Data Scientist", company := "DataCorp",
    location := "Remote", salary := some "$130K-$170K", type := "Remote",
    description := "Python ML and data analytics", posted := "3d" }

/-- Recommendation bands of the MatchScorer contract. Modelled from the spec:
no recommendation classification exists in the source tree (calculateMatchScore
returns only the percentage); the bands live in the documented backend. -/
inductive Recommendation
  | strong
  | moderate
  | weak
deriving DecidableEq, Repr

/-- Modelled from the spec: the fixed recommendation thresholds of the scorer
contract, absent from the source tree. percentage above 70 is strong, 40 to 70
inclusive is moderate, below 40 is weak. -/
def recommendation (percentage : Nat) : Recommendation :=
  if 70 < percentage then Recommendation.strong
  else if 40 ≤ percentage then Recommendation.moderate
  else Recommendation.weak

/-- Modelled from the spec: the status field of CredentialState; the
CredentialValidator belongs to the documented backend, absent from the source
tree. -/
inductive CredStatus
  | unvalidated
  | valid
  | invalid
  | reset_pending
  | resolved
deriving DecidableEq, Repr

/-- Terminal per-job decisions of the orchestrator. -/
inductive Decision
  | applied
  | skipped
  | failed
deriving DecidableEq, Repr

/-- One row of the batch results ledger: job id, terminal decision, optional
skip or failure reason, and the match percentage recorded for the job. -/
structure ApplicationRecord where
  job_id : String
  decision : Decision
  reason : Option String
  match_percentage : Nat
deriving DecidableEq, Repr

/-- The aggregated summary of one batch run. -/
structure BatchSummary where
  success : Bool
  total_jobs : Nat
  applications_submitted : Nat
  applications_skipped : Nat
  results : List ApplicationRecord
deriving DecidableEq, Repr

/-- Modelled from the spec: how one attempted application can end at the
external collaborators: the ResumeOptimizerAdapter can fail, the
ApplicationSubmitterAdapter can fail, the rate limiter's bounded retries can be
exhausted, or the submission succeeds. The adapters are opaque capabilities, so
a batch run is parameterized by an arbitrary assignment of outcomes to jobs. -/
inductive JobOutcome
  | submitted
  | optimizationFailed
  | submissionFailed
  | rateLimited
deriving DecidableEq, Repr

/-- Modelled from the spec: the Optimizing and Submitting tail of the per-job
state machine. Success reaches Applied; an optimization failure, a submission
failure, or rate-limit exhaustion each reach Failed with the corresponding
reason, and the job is not retried within the batch. -/
def attemptApply (o : JobOutcome) (jobId : String) (p : Nat) : ApplicationRecord :=
  match o with
  | JobOutcome.submitted => ⟨jobId, Decision.applied, none, p⟩
  | JobOutcome.optimizationFailed => ⟨jobId, Decision.failed, some "optimization_failed", p⟩
  | JobOutcome.submissionFailed => ⟨jobId, Decision.failed, some "submission_failed", p⟩
  | JobOutcome.rateLimited => ⟨jobId, Decision.failed, some "rate_limited", p⟩

/-- Modelled from the spec: the per-job decision gate of the orchestrator,
absent from the source tree, scoring with the calculateMatchScore of the source:
percentage below 40 is skipped with reason weak_match; 40 to 70 inclusive is
skipped with reason needs_confirmation unless the caller opted in to moderate
matches; otherwise the job proceeds to the optimize-and-submit attempt, whose
outcome at the external adapters decides between Applied and Failed. -/
def decideJob (allowModerate : Bool) (keywords : List String) (o : JobOutcome)
    (job : Job) : ApplicationRecord :=
  let p := calculateMatchScore job keywords
  if p < 40 then ⟨job.id, Decision.skipped, some "weak_match", p⟩
  else if p ≤ 70 then
    if allowModerate then attemptApply o job.id p
    else ⟨job.id, Decision.skipped, some "needs_confirmation", p⟩
  else attemptApply o job.id p

/-- Modelled from the spec: the batch orchestrator, absent from the source tree.
Credential validation is a barrier: unless it reached valid or resolved, nothing
is submitted and every requested job is reported skipped with reason
credential_unresolved; otherwise every job receives exactly one record from the
decision gate under its adapter outcome (per-job failures are isolated and never
abort the batch), and the counts are aggregated from those records. -/
def runBatch (cred : CredStatus) (allowModerate : Bool) (keywords : List String)
    (outcome : Job → JobOutcome) (jobs : List Job) : BatchSummary :=
  if cred = CredStatus.valid ∨ cred = CredStatus.resolved then
    let results := jobs.map (fun j => decideJob allowModerate keywords (outcome j) j)
    { success := true
      total_jobs := jobs.length
      applications_submitted := (results.filter (fun r => decide (r.decision = Decision.applied))).length
      applications_skipped := (results.filter (fun r => decide (r.decision ≠ Decision.applied))).length
      results := results }
  else
    { success := false
      total_jobs := jobs.length
      applications_submitted := 0
      applications_skipped := jobs.length
      results := jobs.map (fun j => ⟨j.id, Decision.skipped, some "credential_unresolved", 0⟩) }

/-- Modelled from the spec: missing skills are the posting's required skills not
matched by the resume; the Job interface of the source tree carries no
required-skills field, so the required list is a parameter. -/
def missingSkills (required : List String) (job : Job) (keywords : List String) : List String :=
  required.filter (fun s => ! (matchedKeywords job keywords).contains s)

/-- A posting whose lowercased text contains python and kubernetes but not aws
and which requires terraform, realizing the scenario of the spec. -/
def c7Job : Job :=
  { id := "j1", title := "Platform Engineer", company := "Acme", location := "Remote",
    salary := none, type := "Full-time",
    description := "python kubernetes terraform", posted := "1d" }

/-- The counting loop never counts more keywords than the list holds. -/
theorem matchedKeywords_length_le (job : Job) (keywords : List String) :
    (matchedKeywords job keywords).length ≤ keywords.length :=
  List.length_filter_le _ _

/-- Rounding a ratio of at most one, scaled to 100, stays at most 100. -/
theorem jsRound_le_100 {m n : Nat} (hm : m ≤ n) (hn : 0 < n) :
    jsRound (100 * m) n ≤ 100 := by
  have h2n : 0 < 2 * n := by omega
  have hlt : 2 * (100 * m) + n < 101 * (2 * n) := by omega
  have h := (Nat.div_lt_iff_lt_mul h2n).mpr hlt
  unfold jsRound
  omega

/-- The first-occurrence deduplication loop keeps its accumulator free of
duplicates. -/
theorem dedupFirst_go_nodup {α : Type} [DecidableEq α] (l : List α) (acc : List α)
    (h : acc.Nodup) :
    (l.foldl (fun acc x => if x ∈ acc then acc else acc ++ [x]) acc).Nodup := by
  induction l generalizing acc with
  | nil => simpa using h
  | cons x xs ih =>
    simp only [List.foldl_cons]
    by_cases hx : x ∈ acc
    · simp only [if_pos hx]
      exact ih acc h
    · simp only [if_neg hx]
      refine ih _ ?_
      simp [List.nodup_append, List.disjoint_singleton, h, hx]

/-- First-occurrence deduplication returns a duplicate-free list. -/
theorem dedupFirst_nodup {α : Type} [DecidableEq α] (l : List α) : (dedupFirst l).Nodup :=
  dedupFirst_go_nodup l [] List.nodup_nil

/-- Every element the deduplication loop emits came from its accumulator or its
input. -/
theorem dedupFirst_go_subset {α : Type} [DecidableEq α] (l : List α) (acc : List α) :
    ∀ x ∈ l.foldl (fun acc x => if x ∈ acc then acc else acc ++ [x]) acc,
      x ∈ acc ∨ x ∈ l := by
  induction l generalizing acc with
  | nil =>
    intro x hx
    exact Or.inl (by simpa using hx)
  | cons y ys ih =>
    intro x hx
    simp only [List.foldl_cons] at hx
    by_cases hy : y ∈ acc
    · rw [if_pos hy] at hx
      rcases ih acc x hx with h | h
      · exact Or.inl h
      · exact Or.inr (List.mem_cons_of_mem _ h)
    · rw [if_neg hy] at hx
      rcases ih (acc ++ [y]) x hx with h | h
      · rcases List.mem_append.mp h with h | h
        · exact Or.inl h
        · exact Or.inr (by simp [List.mem_singleton.mp h])
      · exact Or.inr (List.mem_cons_of_mem _ h)

/-- First-occurrence deduplication only returns elements of its input. -/
theorem dedupFirst_subset {α : Type} [DecidableEq α] (l : List α) : dedupFirst l ⊆ l := by
  intro x hx
  rcases dedupFirst_go_subset l [] x hx with h | h
  · simp at h
  · exact h

/-- An attempted application is recorded under the id it was attempted for,
whether it succeeded or failed at the adapters. -/
theorem attemptApply_job_id (o : JobOutcome) (jobId : String) (p : Nat) :
    (attemptApply o jobId p).job_id = jobId := by
  cases o <;> rfl

/-- The decision gate records a job under its own id, in every branch, whatever
the adapter outcome. -/
theorem decideJob_job_id (allowModerate : Bool) (keywords : List String) (o : JobOutcome)
    (job : Job) :
    (decideJob allowModerate keywords o job).job_id = job.id := by
  simp [decideJob, apply_ite ApplicationRecord.job_id, attemptApply_job_id]

/-- Claim C1: the auto-apply batch of App.tsx enforces no decision gate. The
first sample job scores 0 (far below 40) against this resume keyword list, so
under the specified gate it would be skipped with reason weak_match; yet
handleAutoApply applies to it: the final applied set holds its id and the
reported application count is 1. -/
theorem autoApply_applies_below_40 :
    calculateMatchScore job1 ["python", "kubernetes", "aws"] = 0 ∧
    calculateMatchScore job1 ["python", "kubernetes", "aws"] < 40 ∧
    handleAutoApply true [job1] [] = (["1"], 1) :=
  ⟨rfl, by decide, rfl⟩

/-- Claim C2: when credential validation reached neither valid nor resolved, the
batch halts before submitting: applications_submitted is 0 and every job's
record is not applied and carries reason credential_unresolved. -/
theorem runBatch_credential_halt (cred : CredStatus) (allowModerate : Bool)
    (keywords : List String) (outcome : Job → JobOutcome) (jobs : List Job)
    (hv : cred ≠ CredStatus.valid) (hr : cred ≠ CredStatus.resolved) :
    (runBatch cred allowModerate keywords outcome jobs).applications_submitted = 0 ∧
    ∀ r ∈ (runBatch cred allowModerate keywords outcome jobs).results,
      r.decision ≠ Decision.applied ∧ r.reason = some "credential_unresolved" := by
  have hc : ¬ (cred = CredStatus.valid ∨ cred = CredStatus.resolved) := by
    intro h
    rcases h with h | h
    · exact hv h
    · exact hr h
  unfold runBatch
  rw [if_neg hc]
  refine ⟨rfl, ?_⟩
  intro r hrm
  simp only [List.mem_map] at hrm
  rcases hrm with ⟨j, hj, rfl⟩
  exact ⟨by simp, rfl⟩

/-- Witness for C2: an invalid credential, one sample job, no moderate opt-in,
adapters that would succeed if ever reached. -/
theorem runBatch_credential_halt_witness :
    (runBatch CredStatus.invalid false [] (fun _ => JobOutcome.submitted)
      [job1]).applications_submitted = 0 ∧
    ∀ r ∈ (runBatch CredStatus.invalid false [] (fun _ => JobOutcome.submitted) [job1]).results,
      r.decision ≠ Decision.applied ∧ r.reason = some "credential_unresolved" :=
  runBatch_credential_halt CredStatus.invalid false [] (fun _ => JobOutcome.submitted) [job1]
    (by decide) (by decide)

/-- Claim C3: a completed batch reports exactly one record per requested job,
regardless of per-job failures: for every assignment of adapter outcomes to jobs
(submissions succeeding, optimization failing, submission failing, or rate
limits exhausted, in any mixture), the job ids of the results are the request's
job ids in order (hence the same set, with no omissions and one terminal
decision each), and they are free of duplicates whenever the request is. -/
theorem runBatch_results_complete (cred : CredStatus) (allowModerate : Bool)
    (keywords : List String) (outcome : Job → JobOutcome) (jobs : List Job)
    (h : (jobs.map Job.id).Nodup) :
    (runBatch cred allowModerate keywords outcome jobs).results.map ApplicationRecord.job_id
      = jobs.map Job.id ∧
    ((runBatch cred allowModerate keywords outcome jobs).results.map
      ApplicationRecord.job_id).Nodup := by
  have key : (runBatch cred allowModerate keywords outcome jobs).results.map
      ApplicationRecord.job_id = jobs.map Job.id := by
    unfold runBatch
    by_cases hc : cred = CredStatus.valid ∨ cred = CredStatus.resolved
    · rw [if_pos hc]
      simp [List.map_map, Function.comp, decideJob_job_id]
    · rw [if_neg hc]
      simp [List.map_map, Function.comp]
  refine ⟨key, ?_⟩
  rw [key]
  exact h

/-- Witness for C3: a valid credential and two distinct sample jobs, under
adapters that fail the submission of job 3 (which scores 100 and is attempted)
while job 1 would succeed: the results still cover exactly the requested ids. -/
theorem runBatch_results_complete_witness :
    (runBatch CredStatus.valid false ["python"]
        (fun j => if j.id = "3" then JobOutcome.submissionFailed else JobOutcome.submitted)
        [job1, job3]).results.map ApplicationRecord.job_id
      = [job1, job3].map Job.id ∧
    ((runBatch CredStatus.valid false ["python"]
        (fun j => if j.id = "3" then JobOutcome.submissionFailed else JobOutcome.submitted)
        [job1, job3]).results.map ApplicationRecord.job_id).Nodup :=
  runBatch_results_complete CredStatus.valid false ["python"]
    (fun j => if j.id = "3" then JobOutcome.submissionFailed else JobOutcome.submitted)
    [job1, job3] (by decide)

/-- Claim C4: applying twice to the same job with the same uploaded resume is
idempotent: the second apply leaves the applied-jobs set unchanged, exactly one
applied record for the job id exists afterwards, and the set stays free of
duplicates. -/
theorem manualApply_idempotent (applied : List String) (job : Job) (h : applied.Nodup) :
    handleManualApply true (handleManualApply true applied job) job =
      handleManualApply true applied job ∧
    (handleManualApply true applied job).count job.id = 1 ∧
    (handleManualApply true applied job).Nodup := by
  by_cases hmem : job.id ∈ applied
  · have h1 : handleManualApply true applied job = applied := by
      simp [handleManualApply, jsSetAdd, hmem]
    rw [h1]
    exact ⟨h1, List.count_eq_one_of_mem h hmem, h⟩
  · have h1 : handleManualApply true applied job = applied ++ [job.id] := by
      simp [handleManualApply, jsSetAdd, hmem]
    have hmem2 : job.id ∈ applied ++ [job.id] := by simp
    have h2 : handleManualApply true (applied ++ [job.id]) job = applied ++ [job.id] := by
      simp [handleManualApply, jsSetAdd, hmem2]
    rw [h1, h2]
    refine ⟨rfl, ?_, ?_⟩
    · rw [List.count_append, List.count_eq_zero_of_not_mem hmem]
      simp
    · simp [List.nodup_append, List.disjoint_singleton, h, hmem]

/-- Witness for C4: the second sample job applied twice onto an empty set. -/
theorem manualApply_idempotent_witness :
    handleManualApply true (handleManualApply true [] job2) job2 =
      handleManualApply true [] job2 ∧
    (handleManualApply true [] job2).count job2.id = 1 ∧
    (handleManualApply true [] job2).Nodup :=
  manualApply_idempotent [] job2 List.nodup_nil

/-- Claim C5: for every job posting and resume keyword list the match score lies
between 0 and 100 inclusive, and scoring is deterministic: identical inputs
always give the identical score. -/
theorem calculateMatchScore_bounded_deterministic (job : Job) (keywords : List String) :
    0 ≤ calculateMatchScore job keywords ∧ calculateMatchScore job keywords ≤ 100 ∧
    ∀ job2 : Job, ∀ keywords2 : List String, job2 = job → keywords2 = keywords →
      calculateMatchScore job2 keywords2 = calculateMatchScore job keywords := by
  refine ⟨Nat.zero_le _, ?_, ?_⟩
  · unfold calculateMatchScore
    by_cases h : keywords.length = 0
    · simp [h]
    · simp only [h, if_false]
      exact jsRound_le_100 (matchedKeywords_length_le job keywords) (Nat.pos_of_ne_zero h)
  · intro job2 keywords2 hj hk
    rw [hj, hk]

/-- Witness for C5 at the first sample job and a concrete keyword list. -/
theorem calculateMatchScore_bounded_deterministic_witness :
    0 ≤ calculateMatchScore job1 ["react", "python"] ∧
    calculateMatchScore job1 ["react", "python"] ≤ 100 ∧
    calculateMatchScore job1 ["react", "python"] = calculateMatchScore job1 ["react", "python"] :=
  ⟨(calculateMatchScore_bounded_deterministic job1 ["react", "python"]).1,
   (calculateMatchScore_bounded_deterministic job1 ["react", "python"]).2.1,
   (calculateMatchScore_bounded_deterministic job1 ["react", "python"]).2.2
     job1 ["react", "python"] rfl rfl⟩

/-- Claim C6: with an empty resume keyword list the match score is 0 for every
job posting; the empty keyword set is handled as 0, never as a division error or
a non-numeric result. -/
theorem calculateMatchScore_empty_keywords (job : Job) :
    calculateMatchScore job [] = 0 := by
  simp [calculateMatchScore]

/-- Claim C7: for the resume whose keywords are python, kubernetes, aws and a
posting containing python and kubernetes but not aws while requiring terraform,
the scorer matches python and kubernetes, reports terraform missing, and the
percentage is round(100*2/3) = 67. -/
theorem scenario_python_kubernetes_aws :
    extractKeywordsFromResume "Python Kubernetes AWS" = ["python", "kubernetes", "aws"] ∧
    matchedKeywords c7Job ["python", "kubernetes", "aws"] = ["python", "kubernetes"] ∧
    missingSkills ["python", "kubernetes", "terraform"] c7Job ["python", "kubernetes", "aws"]
      = ["terraform"] ∧
    calculateMatchScore c7Job ["python", "kubernetes", "aws"] = 67 :=
  ⟨rfl, rfl, rfl, rfl⟩

/-- Claim C8 counterexample: with resume keyword python, sample job 3 (score
100) is moved ahead of sample job 1 (score 0): the sequence filterJobsByResume
presents is not in the caller's original job order. -/
theorem filterJobs_not_original_order :
    filterJobsByResume ["python"] [job1, job3] = [job3, job1] ∧
    filterJobsByResume ["python"] [job1, job3] ≠ [job1, job3] := by
  have h1 : calculateMatchScore job1 ["python"] = 0 := rfl
  have h3 : calculateMatchScore job3 ["python"] = 100 := rfl
  have key : filterJobsByResume ["python"] [job1, job3] = [job3, job1] := by
    simp [filterJobsByResume, List.mergeSort, List.merge, h1, h3]
  refine ⟨key, ?_⟩
  rw [key]
  intro hcontra
  exact absurd (congrArg (List.map Job.id) hcontra) (by decide)

/-- Claim C8 (amended): the sequence filterJobsByResume presents is a
permutation of the caller's job list ordered by match score, descending; it is
not ordered by the caller's original job order. -/
theorem filterJobs_sorted_by_score (keywords : List String) (jobs : List Job) :
    (filterJobsByResume keywords jobs).Perm jobs ∧
    (filterJobsByResume keywords jobs).Pairwise
      (fun a b => calculateMatchScore b keywords ≤ calculateMatchScore a keywords) := by
  constructor
  · have hproj : (jobs.map (fun job => (job, calculateMatchScore job keywords))).map
        (fun item : Job × Nat => item.1) = jobs := by
      induction jobs with
      | nil => rfl
      | cons j js ih => simp only [List.map_cons, ih]
    have hp := List.mergeSort_perm (jobs.map (fun job => (job, calculateMatchScore job keywords)))
      (fun a b => decide (b.2 ≤ a.2))
    have hm := hp.map (fun item : Job × Nat => item.1)
    rw [hproj] at hm
    exact hm
  · have htrans : ∀ a b c : Job × Nat, (decide (b.2 ≤ a.2)) = true →
        (decide (c.2 ≤ b.2)) = true → (decide (c.2 ≤ a.2)) = true := by
      intro a b c h1 h2
      simp only [decide_eq_true_eq] at h1 h2 ⊢
      omega
    have htotal : ∀ a b : Job × Nat, ((decide (b.2 ≤ a.2)) || (decide (a.2 ≤ b.2))) = true := by
      intro a b
      simpa using Nat.le_total b.2 a.2
    have hs := List.sorted_mergeSort htrans htotal
      (jobs.map (fun job => (job, calculateMatchScore job keywords)))
    have hmem : ∀ p ∈ (jobs.map (fun job => (job, calculateMatchScore job keywords))).mergeSort
        (fun a b => decide (b.2 ≤ a.2)), p.2 = calculateMatchScore p.1 keywords := by
      intro p hp
      have hpm : p ∈ jobs.map (fun job => (job, calculateMatchScore job keywords)) :=
        (List.mergeSort_perm _ _).mem_iff.mp hp
      simp only [List.mem_map] at hpm
      rcases hpm with ⟨j, hj, rfl⟩
      rfl
    have hs2 := List.Pairwise.imp_of_mem
      (fun {a b} ha hb hab => by
        have ha2 := hmem a ha
        have hb2 := hmem b hb
        simp only [decide_eq_true_eq] at hab
        rw [ha2, hb2] at hab
        exact hab) hs
    have hfinal := hs2.map (fun item : Job × Nat => item.1)
      (S := fun a b => calculateMatchScore b keywords ≤ calculateMatchScore a keywords)
      (fun a b hab => hab)
    exact hfinal

/-- Claim C9: the moderate band is closed at both ends: a score of exactly 70 is
classified moderate, not strong, and a score of exactly 40 is classified
moderate, not weak. -/
theorem recommendation_closed_boundaries :
    recommendation 70 = Recommendation.moderate ∧
    recommendation 40 = Recommendation.moderate ∧
    recommendation 70 ≠ Recommendation.strong ∧
    recommendation 40 ≠ Recommendation.weak := by
  decide

/-- Claim C10: keyword extraction keeps at most 20 keywords: the lowercased
alphabetic words of the resume, deduplicated, truncated to the first 20 distinct
ones; so match scoring never sees more than 20 keywords, none repeated, and each
one a lowercased word of the resume. -/
theorem extractKeywords_at_most_20 (text : String) :
    (extractKeywordsFromResume text).length ≤ 20 ∧
    (extractKeywordsFromResume text).Nodup ∧
    extractKeywordsFromResume text ⊆
      (alphaRuns text.data).map (fun r => String.mk (r.map Char.toLower)) := by
  refine ⟨?_, ?_, ?_⟩
  · unfold extractKeywordsFromResume
    rw [List.length_take]
    exact min_le_left _ _
  · exact (List.take_sublist _ _).nodup (dedupFirst_nodup _)
  · intro x hx
    exact dedupFirst_subset _ (List.take_subset _ _ hx)

/-- Witness for C10 at a concrete resume text with a repeated word. -/
theorem extractKeywords_at_most_20_witness :
    (extractKeywordsFromResume "Senior Python Developer with Python").length ≤ 20 ∧
    (extractKeywordsFromResume "Senior Python Developer with Python").Nodup ∧
    extractKeywordsFromResume "Senior Python Developer with Python" ⊆
      (alphaRuns "Senior Python Developer with Python".data).map
        (fun r => String.mk (r.map Char.toLower)) :=
  extractKeywords_at_most_20 "Senior Python Developer with Python"
